import Mathlib

/-!
NextEngine client (`nextengine` package): token repository and request/response pipeline.

Shallow embedding of `src/nextengine/token_repository.go`, `src/nextengine/error.go` and
`src/nextengine/nextengine.go`.

Conventions of the embedding:

* A Go `string` is a `String`; the empty Go string is `""`.
* A Go pointer result `*APIResponse` is an `Option`; a Go `error` is an `Option` of an error value.
* A method with a pointer receiver takes the receiver's state and returns the state after the call.
* `context.Context` is threaded through the Go code untouched and is omitted.
* A Go `map` that is ranged over is given as the list of its entries in the order the `range`
  visits them; the keys of a map are pairwise distinct.
-/

namespace NextEngine

/-! ## Data model (`nextengine.go`) -/

/-- Result constant `Success`. -/
def Success : String := "success"

/-- Host of the authentication screen. -/
def authHost : String := "https://base.next-engine.org"

/-- Host of the API. -/
def apiHost : String := "https://api.next-engine.org"

/-- The struct `commonResult`. -/
structure commonResult where
  Code : String
  Message : String
  Result : String
  deriving DecidableEq, Repr

/-- The struct `Token`. -/
structure Token where
  AccessToken : String
  RefreshToken : String
  AccessTokenEndDate : String
  RefreshTokenEndDate : String
  deriving DecidableEq, Repr

/-- The struct `APIResponse`: the embedded `commonResult` and `Token`, `Count`, and the sequence
`Data` whose records have type `ρ`. -/
structure APIResponse (ρ : Type) where
  commonResult : commonResult
  Token : Token
  Count : String
  Data : List ρ

/-- The struct `APIError` (`error.go`). -/
structure APIError where
  commonResult : commonResult
  deriving DecidableEq, Repr

/-- The method `(*APIError).Error`. -/
def APIError.Error (e : APIError) : String :=
  e.commonResult.Message

/-! ## The default token repository (`token_repository.go`) -/

/-- The struct `defaultTokenRepository`. -/
structure defaultTokenRepository where
  t : Token
  deriving DecidableEq, Repr

/-- The method `(*defaultTokenRepository).Token`: the held token, a nil error (`none`), and the
receiver, which the method does not assign to. -/
def defaultTokenRepository.Token (ε : Type) (tr : defaultTokenRepository) :
    (NextEngine.Token × Option ε) × defaultTokenRepository :=
  ((tr.t, none), tr)

/-- The value of the local variable `token` of `(*defaultTokenRepository).Save` when the method
reaches its `return`: a copy of `tr.t` in which each field whose incoming value is not `""` has
been overwritten. -/
def defaultTokenRepository.Save.token (tr : defaultTokenRepository) (tok : NextEngine.Token) :
    NextEngine.Token :=
  let token := tr.t
  let token := if tok.AccessToken ≠ "" then { token with AccessToken := tok.AccessToken } else token
  let token :=
    if tok.RefreshToken ≠ "" then { token with RefreshToken := tok.RefreshToken } else token
  let token :=
    if tok.AccessTokenEndDate ≠ "" then
      { token with AccessTokenEndDate := tok.AccessTokenEndDate }
    else token
  let token :=
    if tok.RefreshTokenEndDate ≠ "" then
      { token with RefreshTokenEndDate := tok.RefreshTokenEndDate }
    else token
  token

/-- The method `(*defaultTokenRepository).Save`: `token := tr.t` copies the held struct, the four
conditional assignments go to that copy, and the method returns `nil` without assigning to `tr.t`.
The result is the nil error and the receiver after the call. -/
def defaultTokenRepository.Save (ε : Type) (tr : defaultTokenRepository)
    (tok : NextEngine.Token) : Option ε × defaultTokenRepository :=
  let _token := defaultTokenRepository.Save.token tr tok
  (none, tr)

/-- The token a `Token` call returns after `Save tok` on a repository in state `tr`. -/
def defaultTokenRepository.tokenAfterSave (tr : defaultTokenRepository)
    (tok : NextEngine.Token) : NextEngine.Token :=
  (defaultTokenRepository.Token Unit (defaultTokenRepository.Save Unit tr tok).2).1.1

/-! ## `url.Values` (`map[string][]string`) as used by the client -/

/-- A `url.Values`: the entries of the map, one per key that is present. -/
abbrev Values := List (String × List String)

/-- The index expression `v[key]`: the slice stored under `key`, the nil slice when absent. -/
def Values.index (v : Values) (key : String) : List String :=
  (v.lookup key).getD []

/-- The method `Values.Add`: `v[key] = append(v[key], value)`. -/
def Values.Add : Values → String → String → Values
  | [], key, value => [(key, [value])]
  | (k, vs) :: rest, key, value =>
    if k = key then (k, vs ++ [value]) :: rest else (k, vs) :: Values.Add rest key value

/-- The inner loop `for _, val := range vals { v.Add(key, val) }`. -/
def Values.addEach (v : Values) (key : String) (vals : List String) : Values :=
  vals.foldl (fun acc val => Values.Add acc key val) v

/-- The loop `for key, vals := range extraParam { for _, val := range vals { v.Add(key, val) } }`,
with the entries of `extraParam` in the order the `range` visits them. -/
def Values.addAll (v : Values) (extraParam : Values) : Values :=
  extraParam.foldl (fun acc kv => Values.addEach acc kv.1 kv.2) v

/-- The loop `for key, val := range params { v.Add(key, val) }` over a `map[string]string`, with
the entries of `params` in the order the `range` visits them. -/
def Values.addParams (v : Values) (params : List (String × String)) : Values :=
  params.foldl (fun acc kv => Values.Add acc kv.1 kv.2) v

/-- The index expression `params[key]` on a `map[string]string`, as the list of the values
stored under `key` (none or one). -/
def paramsIndex (params : List (String × String)) (key : String) : List String :=
  (params.lookup key).toList

/-! ## The client (`nextengine.go`) -/

/-- An `*http.Request` as `newRequest` builds it: method, URL, the `Content-Type` header and the
body text. -/
structure HTTPRequest where
  method : String
  url : String
  contentType : String
  body : String
  deriving DecidableEq, Repr

/-- A Go `error` value returned by the client: an `*APIError`, or an error of a dependency
(token repository, transport, reader, decoder), of type `ε`. -/
inductive GoError (ε : Type) where
  | api (e : APIError)
  | foreign (e : ε)

/-- The outcome of a call returning `(*APIResponse, error)`: the pair returned, or a run-time
panic. -/
inductive Outcome (ε ρ : Type) where
  | returned (res : Option (APIResponse ρ)) (err : Option (GoError ε))
  | panicked

/-- A call the client makes on one of its dependencies. -/
inductive Event where
  | Token
  | Save (tok : NextEngine.Token)
  | Do (req : HTTPRequest)
  | Close
  deriving DecidableEq, Repr

/-- The state outside the client: `world` is the state of its dependencies (token repository and
transport), `trace` the calls made on them so far, oldest first. -/
structure State (ω : Type) where
  world : ω
  trace : List Event

/-- The interface `TokenRepository` over the state `ω`. -/
structure TokenRepository (ω ε : Type) where
  Token : ω → (NextEngine.Token × Option ε) × ω
  Save : ω → NextEngine.Token → Option ε × ω

/-- An `*http.Client`, by its method `Do`: a transport error, or the response body as
`ioutil.ReadAll` reads it (a read error, or the payload). -/
structure HTTPClient (ω ε : Type) where
  Do : ω → HTTPRequest → Except ε (Except ε String) × ω

/-- The standard-library functions the client calls, taken as parameters.
`Encode` is `url.Values.Encode`.
`parseString s` is `u.String()` for `u, _ := url.Parse(s)`, `none` when `url.Parse` fails and
leaves `u` nil.
`NewRequest method url` is the error of `http.NewRequest`, `none` when it succeeds.
`Unmarshal payload` is `json.Unmarshal(payload, &res)` for `res := &APIResponse{}`: an error,
or the value of the pointer `res` afterwards, which the JSON literal `null` sets to nil. -/
structure Stdlib (ε ρ : Type) where
  Encode : Values → String
  parseString : String → Option String
  NewRequest : String → String → Option ε
  Unmarshal : String → Except ε (Option (APIResponse ρ))

/-- The struct `Config`. -/
structure Config (ω ε : Type) where
  clientID : String
  clientSecret : String
  redirectURI : String
  HTTPClient : HTTPClient ω ε
  tokenRepository : TokenRepository ω ε

/-- The function `NewClient`. -/
def NewClient {ω ε : Type} (clientID clientSecret redirectURI : String)
    (httpClient : HTTPClient ω ε) (tr : TokenRepository ω ε) : Config ω ε :=
  { clientID := clientID, clientSecret := clientSecret, redirectURI := redirectURI,
    HTTPClient := httpClient, tokenRepository := tr }

/-- The call `c.tokenRepository.Token(ctx)`, recorded in the trace. -/
def Config.callToken {ω ε : Type} (c : Config ω ε) (s : State ω) :
    (NextEngine.Token × Option ε) × State ω :=
  let r := c.tokenRepository.Token s.world
  (r.1, { world := r.2, trace := s.trace ++ [Event.Token] })

/-- The call `c.tokenRepository.Save(ctx, tok)`, recorded in the trace. -/
def Config.callSave {ω ε : Type} (c : Config ω ε) (tok : NextEngine.Token) (s : State ω) :
    Option ε × State ω :=
  let r := c.tokenRepository.Save s.world tok
  (r.1, { world := r.2, trace := s.trace ++ [Event.Save tok] })

/-- The call `c.HTTPClient.Do(httpRequest)`, recorded in the trace. -/
def Config.callDo {ω ε : Type} (c : Config ω ε) (req : HTTPRequest) (s : State ω) :
    Except ε (Except ε String) × State ω :=
  let r := c.HTTPClient.Do s.world req
  (r.1, { world := r.2, trace := s.trace ++ [Event.Do req] })

/-- The `url.Values` that `SignInURI` builds before encoding. -/
def Config.SignInURI.v {ω ε : Type} (c : Config ω ε) (extraParam : Values) : Values :=
  let v : Values := []
  let v := Values.Add v "client_id" c.clientID
  let v := Values.Add v "redirect_uri" c.redirectURI
  Values.addAll v extraParam

/-- The method `Config.SignInURI`. The constant base URL parses into scheme, host and path, the
encoded query is never empty (it has `client_id`), so `u.String()` is the base URL, `?` and the
query. -/
def Config.SignInURI {ω ε ρ : Type} (std : Stdlib ε ρ) (c : Config ω ε) (extraParam : Values) :
    String :=
  authHost ++ "/users/sign_in/" ++ "?" ++ std.Encode (Config.SignInURI.v c extraParam)

/-- The function `newRequest`. -/
def newRequest {ε ρ : Type} (std : Stdlib ε ρ) (method endpoint body : String) :
    Except ε HTTPRequest :=
  match std.NewRequest method endpoint with
  | some err => Except.error err
  | none =>
    Except.ok { method := method, url := endpoint,
                contentType := "application/x-www-form-urlencoded", body := body }

/-- The body of `Config.responseHandler` after `defer body.Close()`. -/
def Config.responseHandler.run {ω ε ρ : Type} (std : Stdlib ε ρ) (c : Config ω ε)
    (body : Except ε String) (s : State ω) : Outcome ε ρ × State ω :=
  match body with
  | Except.error err => (Outcome.returned none (some (GoError.foreign err)), s)
  | Except.ok payload =>
    match std.Unmarshal payload with
    | Except.error err => (Outcome.returned none (some (GoError.foreign err)), s)
    | Except.ok none => (Outcome.panicked, s)
    | Except.ok (some res) =>
      let saved : Option ε × State ω :=
        if res.Token.AccessToken ≠ "" ∧ res.Token.RefreshToken ≠ "" then
          c.callSave res.Token s
        else (none, s)
      match saved with
      | (some err, s1) => (Outcome.returned none (some (GoError.foreign err)), s1)
      | (none, s1) =>
        if res.commonResult.Result ≠ Success then
          (Outcome.returned none
            (some (GoError.api
              { commonResult :=
                  { Code := res.commonResult.Code,
                    Message := res.commonResult.Message,
                    Result := res.commonResult.Result } })), s1)
        else
          (Outcome.returned (some res) none, s1)

/-- The method `Config.responseHandler`: the deferred `body.Close()` runs when the body of the
method is left, by `return` or by panic. -/
def Config.responseHandler {ω ε ρ : Type} (std : Stdlib ε ρ) (c : Config ω ε)
    (body : Except ε String) (s : State ω) : Outcome ε ρ × State ω :=
  let r := Config.responseHandler.run std c body s
  (r.1, { world := r.2.world, trace := r.2.trace ++ [Event.Close] })

/-- The `url.Values` that `Config.request` builds before encoding. -/
def Config.request.v (params : List (String × String)) (extraParams : Values) : Values :=
  let v : Values := []
  let v := Values.addParams v params
  Values.addAll v extraParams

/-- The method `Config.request`. -/
def Config.request {ω ε ρ : Type} (std : Stdlib ε ρ) (c : Config ω ε) (endpoint : String)
    (params : List (String × String)) (extraParams : Values) (s : State ω) :
    Outcome ε ρ × State ω :=
  match std.parseString (apiHost ++ endpoint) with
  | none => (Outcome.panicked, s)
  | some u =>
    match newRequest std "POST" u (std.Encode (Config.request.v params extraParams)) with
    | Except.error err => (Outcome.returned none (some (GoError.foreign err)), s)
    | Except.ok httpRequest =>
      match c.callDo httpRequest s with
      | (Except.error err, s1) => (Outcome.returned none (some (GoError.foreign err)), s1)
      | (Except.ok body, s1) => Config.responseHandler std c body s1

/-- The credential values of `Config.Authorize`. -/
def Config.Authorize.v {ω ε : Type} (c : Config ω ε) (uid state : String) : Values :=
  let v : Values := []
  let v := Values.Add v "client_id" c.clientID
  let v := Values.Add v "client_secret" c.clientSecret
  let v := Values.Add v "uid" uid
  Values.Add v "state" state

/-- The method `Config.Authorize`; the nil `params` map has no entries. -/
def Config.Authorize {ω ε ρ : Type} (std : Stdlib ε ρ) (c : Config ω ε) (uid state : String)
    (s : State ω) : Outcome ε ρ × State ω :=
  Config.request std c "/api_neauth" [] (Config.Authorize.v c uid state) s

/-- The credential values of `Config.APIExecute` for the token `tok` read from the repository. -/
def Config.APIExecute.v (tok : NextEngine.Token) : Values :=
  let v : Values := []
  let v := Values.Add v "access_token" tok.AccessToken
  Values.Add v "refresh_token" tok.RefreshToken

/-- The method `Config.APIExecute`. -/
def Config.APIExecute {ω ε ρ : Type} (std : Stdlib ε ρ) (c : Config ω ε) (endpoint : String)
    (params : List (String × String)) (s : State ω) : Outcome ε ρ × State ω :=
  match c.callToken s with
  | ((_, some err), s1) => (Outcome.returned none (some (GoError.foreign err)), s1)
  | ((tok, none), s1) => Config.request std c endpoint params (Config.APIExecute.v tok) s1

/-- The credential values of `Config.APIExecuteNoRequiredLogin`. -/
def Config.APIExecuteNoRequiredLogin.v {ω ε : Type} (c : Config ω ε) : Values :=
  let v : Values := []
  let v := Values.Add v "client_id" c.clientID
  Values.Add v "client_secret" c.clientSecret

/-- The method `Config.APIExecuteNoRequiredLogin`. -/
def Config.APIExecuteNoRequiredLogin {ω ε ρ : Type} (std : Stdlib ε ρ) (c : Config ω ε)
    (endpoint : String) (params : List (String × String)) (s : State ω) :
    Outcome ε ρ × State ω :=
  Config.request std c endpoint params (Config.APIExecuteNoRequiredLogin.v c) s

/-- The tokens passed to `TokenRepository.Save` in a trace, oldest first. -/
def savedTokens : List Event → List NextEngine.Token
  | [] => []
  | Event.Save tok :: rest => tok :: savedTokens rest
  | _ :: rest => savedTokens rest

/-- The requests passed to `HTTPClient.Do` in a trace, oldest first. -/
def doneRequests : List Event → List HTTPRequest
  | [] => []
  | Event.Do req :: rest => req :: doneRequests rest
  | _ :: rest => doneRequests rest

/-- The default token repository as a `TokenRepository` whose state is the repository itself. -/
def defaultTokenRepository.asRepository (ε : Type) : TokenRepository defaultTokenRepository ε :=
  { Token := fun tr => defaultTokenRepository.Token ε tr,
    Save := fun tr tok => defaultTokenRepository.Save ε tr tok }

/-! ## Fixtures for the examples -/

/-- A token repository for the examples: its state is the held token, `Token` returns it with
the error `tokenErr`, and `Save` replaces it unless it fails with `saveErr`. -/
def mockRepository (tokenErr saveErr : Option String) : TokenRepository NextEngine.Token String :=
  { Token := fun held => ((held, tokenErr), held),
    Save := fun held tok =>
      match saveErr with
      | some err => (some err, held)
      | none => (none, tok) }

/-- A transport for the examples: every request gets the same `response`. -/
def mockClient (response : Except String (Except String String)) :
    HTTPClient NextEngine.Token String :=
  { Do := fun held _ => (response, held) }

/-- A client for the examples. -/
def mockConfig (tokenErr saveErr : Option String)
    (response : Except String (Except String String)) : Config NextEngine.Token String :=
  NewClient "id" "secret" "https://example.com/callback" (mockClient response)
    (mockRepository tokenErr saveErr)

/-- Standard-library stand-ins for the examples: `Encode` joins `key=value` pairs without
escaping or sorting, every URL parses to itself, `http.NewRequest` succeeds, and every payload
decodes to `decoded`. -/
def mockStd {ρ : Type} (decoded : Except String (Option (APIResponse ρ))) : Stdlib String ρ :=
  { Encode := fun v =>
      String.intercalate "&"
        (v.map fun kv => String.intercalate "&" (kv.2.map fun x => kv.1 ++ "=" ++ x)),
    parseString := fun s => some s,
    NewRequest := fun _ _ => none,
    Unmarshal := fun _ => decoded }

/-- The envelope of the body
`{"result":"success","code":"200","message":"","data":[{"id":"1"}]}`. -/
def successEnvelope : APIResponse (List (String × String)) :=
  { commonResult := { Code := "200", Message := "", Result := "success" },
    Token := { AccessToken := "", RefreshToken := "",
               AccessTokenEndDate := "", RefreshTokenEndDate := "" },
    Count := "",
    Data := [[("id", "1")]] }

/-- An envelope with result `error` that carries a complete token pair. -/
def errorEnvelopeWithTokens : APIResponse (List (String × String)) :=
  { commonResult := { Code := "002004", Message := "expired", Result := "error" },
    Token := { AccessToken := "a", RefreshToken := "r",
               AccessTokenEndDate := "", RefreshTokenEndDate := "" },
    Count := "",
    Data := [] }

/-- An envelope with result `success` that carries a complete token pair. -/
def successEnvelopeWithTokens : APIResponse (List (String × String)) :=
  { commonResult := { Code := "200", Message := "", Result := "success" },
    Token := { AccessToken := "a", RefreshToken := "r",
               AccessTokenEndDate := "d1", RefreshTokenEndDate := "d2" },
    Count := "1",
    Data := [[("id", "1")]] }

/-- A held token for the examples. -/
def heldToken : NextEngine.Token :=
  { AccessToken := "A", RefreshToken := "B", AccessTokenEndDate := "", RefreshTokenEndDate := "" }

/-- An initial state for the examples: `heldToken` in the repository, no calls made yet. -/
def initialState : State NextEngine.Token :=
  { world := heldToken, trace := [] }

/-! ## The default token repository: theorems -/

/-- C10: for every held token and every incoming token, `Save` returns no error and leaves the
held state unchanged, so `Token` after `Save` returns what `Token` returned before. -/
theorem defaultTokenRepository_Save_noop (ε : Type) (tr : defaultTokenRepository)
    (tok : NextEngine.Token) :
    (defaultTokenRepository.Save ε tr tok).1 = none ∧
    (defaultTokenRepository.Save ε tr tok).2 = tr ∧
    (defaultTokenRepository.Token ε (defaultTokenRepository.Save ε tr tok).2).1 =
      (defaultTokenRepository.Token ε tr).1 ∧
    (defaultTokenRepository.Token ε tr).1 = (tr.t, none) := by
  refine ⟨rfl, rfl, rfl, rfl⟩

/-- C1 (evaluation at the failing input): holding access "A" and refresh "B", after `Save` of
access "" and refresh "C" the local copy is access "A", refresh "C", but `Token` still returns
access "A", refresh "B": the refresh token is the previously held one, not the incoming one. -/
theorem defaultTokenRepository_Save_drops_merge :
    defaultTokenRepository.Save.token
        { t := { AccessToken := "A", RefreshToken := "B",
                 AccessTokenEndDate := "", RefreshTokenEndDate := "" } }
        { AccessToken := "", RefreshToken := "C",
          AccessTokenEndDate := "", RefreshTokenEndDate := "" } =
      { AccessToken := "A", RefreshToken := "C",
        AccessTokenEndDate := "", RefreshTokenEndDate := "" } ∧
    defaultTokenRepository.tokenAfterSave
        { t := { AccessToken := "A", RefreshToken := "B",
                 AccessTokenEndDate := "", RefreshTokenEndDate := "" } }
        { AccessToken := "", RefreshToken := "C",
          AccessTokenEndDate := "", RefreshTokenEndDate := "" } =
      { AccessToken := "A", RefreshToken := "B",
        AccessTokenEndDate := "", RefreshTokenEndDate := "" } ∧
    (defaultTokenRepository.tokenAfterSave
        { t := { AccessToken := "A", RefreshToken := "B",
                 AccessTokenEndDate := "", RefreshTokenEndDate := "" } }
        { AccessToken := "", RefreshToken := "C",
          AccessTokenEndDate := "", RefreshTokenEndDate := "" }).RefreshToken ≠ "C" := by
  refine ⟨by decide, by decide, by decide⟩

theorem Values.index_nil (k : String) : Values.index [] k = [] := rfl

theorem Values.index_cons (k0 : String) (vs : List String) (rest : Values) (k : String) :
    Values.index ((k0, vs) :: rest) k = if k = k0 then vs else Values.index rest k := by
  by_cases h : k = k0
  · subst h; simp [Values.index, List.lookup]
  · have h1 : (k == k0) = false := by simpa using h
    simp [Values.index, List.lookup, h1, h]

theorem Values.index_Add (v : Values) (key value k : String) :
    Values.index (Values.Add v key value) k =
      if k = key then Values.index v key ++ [value] else Values.index v k := by
  induction v with
  | nil =>
    simp only [Values.Add, Values.index_cons, Values.index_nil, List.nil_append]
  | cons hd rest ih =>
    obtain ⟨k0, vs⟩ := hd
    by_cases h0 : k0 = key
    · subst h0
      by_cases h : k = k0
      · subst h; simp [Values.Add, Values.index_cons]
      · simp [Values.Add, Values.index_cons, h]
    · have h0s : ¬ key = k0 := fun e => h0 e.symm
      by_cases h : k = key
      · subst h
        simp [Values.Add, Values.index_cons, h0, h0s, ih]
      · by_cases h2 : k = k0
        · subst h2; simp [Values.Add, Values.index_cons, h0, h]
        · simp [Values.Add, Values.index_cons, h0, h, h2, ih]

theorem Values.index_addEach (v : Values) (key : String) (vals : List String) (k : String) :
    Values.index (Values.addEach v key vals) k =
      if k = key then Values.index v key ++ vals else Values.index v k := by
  induction vals generalizing v with
  | nil => by_cases h : k = key <;> simp [Values.addEach, h]
  | cons x xs ih =>
    have step : Values.addEach v key (x :: xs) = Values.addEach (Values.Add v key x) key xs := rfl
    rw [step, ih, Values.index_Add, Values.index_Add]
    by_cases h : k = key <;> simp [h]

theorem Values.index_eq_nil_of_not_mem (v : Values) (k : String)
    (h : k ∉ v.map Prod.fst) : Values.index v k = [] := by
  induction v with
  | nil => rfl
  | cons hd rest ih =>
    obtain ⟨k0, vs⟩ := hd
    simp only [List.map_cons, List.mem_cons, not_or] at h
    rw [Values.index_cons, if_neg h.1, ih h.2]

theorem Values.index_addAll (v extraParam : Values) (h : (extraParam.map Prod.fst).Nodup)
    (k : String) :
    Values.index (Values.addAll v extraParam) k =
      Values.index v k ++ Values.index extraParam k := by
  induction extraParam generalizing v with
  | nil => simp [Values.addAll, Values.index_nil]
  | cons hd rest ih =>
    obtain ⟨k0, vs⟩ := hd
    simp only [List.map_cons, List.nodup_cons] at h
    have step : Values.addAll v ((k0, vs) :: rest) =
        Values.addAll (Values.addEach v k0 vs) rest := rfl
    rw [step, ih _ h.2, Values.index_addEach, Values.index_cons]
    by_cases hk : k = k0
    · subst hk
      simp [Values.index_eq_nil_of_not_mem rest k h.1]
    · simp [hk]

theorem paramsIndex_cons (k0 x : String) (rest : List (String × String)) (k : String) :
    paramsIndex ((k0, x) :: rest) k = if k = k0 then [x] else paramsIndex rest k := by
  by_cases h : k = k0
  · subst h; simp [paramsIndex, List.lookup]
  · have h1 : (k == k0) = false := by simpa using h
    simp [paramsIndex, List.lookup, h1, h]

theorem paramsIndex_eq_nil_of_not_mem (params : List (String × String)) (k : String)
    (h : k ∉ params.map Prod.fst) : paramsIndex params k = [] := by
  induction params with
  | nil => rfl
  | cons hd rest ih =>
    obtain ⟨k0, x⟩ := hd
    simp only [List.map_cons, List.mem_cons, not_or] at h
    rw [paramsIndex_cons, if_neg h.1, ih h.2]

theorem Values.index_addParams (v : Values) (params : List (String × String))
    (h : (params.map Prod.fst).Nodup) (k : String) :
    Values.index (Values.addParams v params) k =
      Values.index v k ++ paramsIndex params k := by
  induction params generalizing v with
  | nil => simp [Values.addParams, paramsIndex]
  | cons hd rest ih =>
    obtain ⟨k0, x⟩ := hd
    simp only [List.map_cons, List.nodup_cons] at h
    have step : Values.addParams v ((k0, x) :: rest) =
        Values.addParams (Values.Add v k0 x) rest := rfl
    rw [step, ih _ h.2, Values.index_Add, paramsIndex_cons]
    by_cases hk : k = k0
    · subst hk
      simp [paramsIndex_eq_nil_of_not_mem rest k h.1]
    · simp [hk]

/-! ## Traces -/

theorem savedTokens_append (xs ys : List Event) :
    savedTokens (xs ++ ys) = savedTokens xs ++ savedTokens ys := by
  induction xs with
  | nil => rfl
  | cons e rest ih => cases e <;> simp [savedTokens, ih]

theorem doneRequests_append (xs ys : List Event) :
    doneRequests (xs ++ ys) = doneRequests xs ++ doneRequests ys := by
  induction xs with
  | nil => rfl
  | cons e rest ih => cases e <;> simp [doneRequests, ih]

/-- The response handler passes nothing to `HTTPClient.Do`. -/
theorem responseHandler_doneRequests {ω ε ρ : Type} (std : Stdlib ε ρ) (c : Config ω ε)
    (body : Except ε String) (s : State ω) :
    doneRequests (Config.responseHandler std c body s).2.trace = doneRequests s.trace := by
  unfold Config.responseHandler Config.responseHandler.run
  cases body with
  | error err => simp [doneRequests_append, doneRequests]
  | ok payload =>
    cases hdec : std.Unmarshal payload with
    | error err => simp [hdec, doneRequests_append, doneRequests]
    | ok r =>
      cases r with
      | none => simp [hdec, doneRequests_append, doneRequests]
      | some res =>
        by_cases hb : res.Token.AccessToken ≠ "" ∧ res.Token.RefreshToken ≠ ""
        · cases hs : (c.tokenRepository.Save s.world res.Token).1 with
          | some err => simp [hdec, hb, Config.callSave, hs, doneRequests_append, doneRequests]
          | none =>
            by_cases hr : res.commonResult.Result = Success <;>
              simp [hdec, hb, Config.callSave, hs, hr, doneRequests_append, doneRequests]
        · by_cases hr : res.commonResult.Result = Success <;>
            simp [hdec, hb, hr, doneRequests_append, doneRequests]

/-! ## The response handler -/

/-- C2: for a decoded envelope whose result is not exactly "success", when the Save that the
handler makes (if any) succeeds, the handler returns a nil response and an `APIError` whose
code, message and result are the envelope's. -/
theorem responseHandler_error_result {ω ε ρ : Type} (std : Stdlib ε ρ) (c : Config ω ε)
    (payload : String) (res : APIResponse ρ) (s : State ω)
    (hdec : std.Unmarshal payload = Except.ok (some res))
    (hres : res.commonResult.Result ≠ "success")
    (hsave : res.Token.AccessToken ≠ "" ∧ res.Token.RefreshToken ≠ "" →
      (c.tokenRepository.Save s.world res.Token).1 = none) :
    (Config.responseHandler std c (Except.ok payload) s).1 =
      Outcome.returned none
        (some (GoError.api
          { commonResult :=
              { Code := res.commonResult.Code,
                Message := res.commonResult.Message,
                Result := res.commonResult.Result } })) := by
  have hr : ¬ res.commonResult.Result = Success := hres
  unfold Config.responseHandler Config.responseHandler.run
  by_cases hb : res.Token.AccessToken ≠ "" ∧ res.Token.RefreshToken ≠ ""
  · simp [hdec, hb, Config.callSave, hsave hb, hr]
  · simp [hdec, hb, hr]


/-- For a decoded envelope whose access token or refresh token is empty, the handler leaves the
state of the dependencies as it was and only closes the body. -/
theorem responseHandler_no_save {ω ε ρ : Type} (std : Stdlib ε ρ) (c : Config ω ε)
    (payload : String) (res : APIResponse ρ) (s : State ω)
    (hdec : std.Unmarshal payload = Except.ok (some res))
    (hb : ¬ (res.Token.AccessToken ≠ "" ∧ res.Token.RefreshToken ≠ "")) :
    (Config.responseHandler std c (Except.ok payload) s).2.world = s.world ∧
    (Config.responseHandler std c (Except.ok payload) s).2.trace = s.trace ++ [Event.Close] := by
  unfold Config.responseHandler Config.responseHandler.run
  by_cases hr : res.commonResult.Result = Success <;> simp [hdec, hb, hr]

/-- For a decoded envelope whose access token and refresh token are both non-empty, the handler
calls Save with the envelope's token, then closes the body; the state of the dependencies is the
one Save leaves. -/
theorem responseHandler_with_save {ω ε ρ : Type} (std : Stdlib ε ρ) (c : Config ω ε)
    (payload : String) (res : APIResponse ρ) (s : State ω)
    (hdec : std.Unmarshal payload = Except.ok (some res))
    (hb : res.Token.AccessToken ≠ "" ∧ res.Token.RefreshToken ≠ "") :
    (Config.responseHandler std c (Except.ok payload) s).2.world =
      (c.tokenRepository.Save s.world res.Token).2 ∧
    (Config.responseHandler std c (Except.ok payload) s).2.trace =
      s.trace ++ [Event.Save res.Token, Event.Close] := by
  unfold Config.responseHandler Config.responseHandler.run
  cases hs : (c.tokenRepository.Save s.world res.Token).1 with
  | some err => simp [hdec, hb, Config.callSave, hs]
  | none =>
    by_cases hr : res.commonResult.Result = Success <;>
      simp [hdec, hb, Config.callSave, hs, hr]

/-- C2 (example): an envelope with result `error`, code `002004`, message `expired` and a token
pair, with a repository whose Save succeeds, gives a nil response and the matching `APIError`. -/
theorem responseHandler_error_result_witness :
    (Config.responseHandler (mockStd (Except.ok (some errorEnvelopeWithTokens)))
        (mockConfig none none (Except.ok (Except.ok "body"))) (Except.ok "body")
        initialState).1 =
      Outcome.returned none
        (some (GoError.api
          { commonResult := { Code := "002004", Message := "expired", Result := "error" } })) :=
  responseHandler_error_result (mockStd (Except.ok (some errorEnvelopeWithTokens)))
    (mockConfig none none (Except.ok (Except.ok "body"))) "body" errorEnvelopeWithTokens
    initialState rfl (by decide) (fun _ => rfl)

/-- C3: for a decodable envelope, the handler calls `TokenRepository.Save` exactly once, with
the envelope's embedded token, when the access token and the refresh token are both non-empty,
and does not call it when either of them is empty. -/
theorem responseHandler_save_calls {ω ε ρ : Type} (std : Stdlib ε ρ) (c : Config ω ε)
    (payload : String) (res : APIResponse ρ) (s : State ω)
    (hdec : std.Unmarshal payload = Except.ok (some res)) :
    (res.Token.AccessToken ≠ "" ∧ res.Token.RefreshToken ≠ "" →
      (Config.responseHandler std c (Except.ok payload) s).2.trace =
        s.trace ++ [Event.Save res.Token, Event.Close] ∧
      savedTokens (Config.responseHandler std c (Except.ok payload) s).2.trace =
        savedTokens s.trace ++ [res.Token]) ∧
    (res.Token.AccessToken = "" ∨ res.Token.RefreshToken = "" →
      (Config.responseHandler std c (Except.ok payload) s).2.trace =
        s.trace ++ [Event.Close] ∧
      savedTokens (Config.responseHandler std c (Except.ok payload) s).2.trace =
        savedTokens s.trace) := by
  constructor
  · intro hb
    have h := (responseHandler_with_save std c payload res s hdec hb).2
    refine ⟨h, ?_⟩
    rw [h, savedTokens_append]
    rfl
  · intro he
    have hb : ¬ (res.Token.AccessToken ≠ "" ∧ res.Token.RefreshToken ≠ "") := by
      rintro ⟨h1, h2⟩
      cases he with
      | inl h => exact h1 h
      | inr h => exact h2 h
    have h := (responseHandler_no_save std c payload res s hdec hb).2
    refine ⟨h, ?_⟩
    rw [h, savedTokens_append]
    simp [savedTokens]

/-- C3 (example): a success envelope with the token pair `a`, `r` is saved once; the success
envelope without tokens is not saved. -/
theorem responseHandler_save_calls_witness :
    savedTokens (Config.responseHandler (mockStd (Except.ok (some successEnvelopeWithTokens)))
        (mockConfig none none (Except.ok (Except.ok "body"))) (Except.ok "body")
        initialState).2.trace = [successEnvelopeWithTokens.Token] ∧
    savedTokens (Config.responseHandler (mockStd (Except.ok (some successEnvelope)))
        (mockConfig none none (Except.ok (Except.ok "body"))) (Except.ok "body")
        initialState).2.trace = [] :=
  ⟨((responseHandler_save_calls (mockStd (Except.ok (some successEnvelopeWithTokens)))
      (mockConfig none none (Except.ok (Except.ok "body"))) "body" successEnvelopeWithTokens
      initialState rfl).1 (by decide)).2,
   ((responseHandler_save_calls (mockStd (Except.ok (some successEnvelope)))
      (mockConfig none none (Except.ok (Except.ok "body"))) "body" successEnvelope
      initialState rfl).2 (by decide)).2⟩

/-- C4 (counterexample): an envelope whose result is `error`, not `success`, and which carries
the token pair `a`, `r` makes the handler call `TokenRepository.Save` with that token, and the
repository then holds it. -/
theorem responseHandler_saves_on_error_result :
    errorEnvelopeWithTokens.commonResult.Result ≠ "success" ∧
    savedTokens initialState.trace = [] ∧
    savedTokens (Config.responseHandler (mockStd (Except.ok (some errorEnvelopeWithTokens)))
        (mockConfig none none (Except.ok (Except.ok "body"))) (Except.ok "body")
        initialState).2.trace = [errorEnvelopeWithTokens.Token] ∧
    (Config.responseHandler (mockStd (Except.ok (some errorEnvelopeWithTokens)))
        (mockConfig none none (Except.ok (Except.ok "body"))) (Except.ok "body")
        initialState).2.world = errorEnvelopeWithTokens.Token ∧
    initialState.world ≠ errorEnvelopeWithTokens.Token := by
  refine ⟨by decide, rfl, ?_, ?_, by decide⟩
  · rw [(responseHandler_with_save (mockStd (Except.ok (some errorEnvelopeWithTokens)))
      (mockConfig none none (Except.ok (Except.ok "body"))) "body" errorEnvelopeWithTokens
      initialState rfl (by decide)).2]
    rfl
  · rw [(responseHandler_with_save (mockStd (Except.ok (some errorEnvelopeWithTokens)))
      (mockConfig none none (Except.ok (Except.ok "body"))) "body" errorEnvelopeWithTokens
      initialState rfl (by decide)).1]
    rfl

/-- C4 (amended): the repository is touched only by responses that carry a token pair, whatever
their result. For a decoded envelope whose access token or refresh token is empty the handler
does not call `TokenRepository.Save` and leaves the repository state as it was; for a decoded
envelope whose result is not "success" and whose access token and refresh token are both
non-empty it calls Save once, with the envelope's token. -/
theorem responseHandler_save_frame {ω ε ρ : Type} (std : Stdlib ε ρ) (c : Config ω ε)
    (payload : String) (res : APIResponse ρ) (s : State ω)
    (hdec : std.Unmarshal payload = Except.ok (some res)) :
    (res.Token.AccessToken = "" ∨ res.Token.RefreshToken = "" →
      savedTokens (Config.responseHandler std c (Except.ok payload) s).2.trace =
        savedTokens s.trace ∧
      (Config.responseHandler std c (Except.ok payload) s).2.world = s.world) ∧
    (res.commonResult.Result ≠ "success" →
      res.Token.AccessToken ≠ "" ∧ res.Token.RefreshToken ≠ "" →
      savedTokens (Config.responseHandler std c (Except.ok payload) s).2.trace =
        savedTokens s.trace ++ [res.Token] ∧
      (Config.responseHandler std c (Except.ok payload) s).2.world =
        (c.tokenRepository.Save s.world res.Token).2) := by
  constructor
  · intro he
    have hb : ¬ (res.Token.AccessToken ≠ "" ∧ res.Token.RefreshToken ≠ "") := by
      rintro ⟨h1, h2⟩
      cases he with
      | inl h => exact h1 h
      | inr h => exact h2 h
    have h := responseHandler_no_save std c payload res s hdec hb
    refine ⟨?_, h.1⟩
    rw [h.2, savedTokens_append]
    simp [savedTokens]
  · intro _ hb
    have h := responseHandler_with_save std c payload res s hdec hb
    refine ⟨?_, h.1⟩
    rw [h.2, savedTokens_append]
    rfl

/-- C4 (amended, example): the error envelope with the token pair `a`, `r` is saved once, and
the repository state after the call is the one its Save produced. -/
theorem responseHandler_save_frame_witness :
    savedTokens (Config.responseHandler (mockStd (Except.ok (some errorEnvelopeWithTokens)))
        (mockConfig none none (Except.ok (Except.ok "body"))) (Except.ok "body")
        initialState).2.trace = savedTokens initialState.trace ++ [errorEnvelopeWithTokens.Token] ∧
    (Config.responseHandler (mockStd (Except.ok (some errorEnvelopeWithTokens)))
        (mockConfig none none (Except.ok (Except.ok "body"))) (Except.ok "body")
        initialState).2.world =
      ((mockConfig none none (Except.ok (Except.ok "body"))).tokenRepository.Save
        initialState.world errorEnvelopeWithTokens.Token).2 :=
  (responseHandler_save_frame (mockStd (Except.ok (some errorEnvelopeWithTokens)))
    (mockConfig none none (Except.ok (Except.ok "body"))) "body" errorEnvelopeWithTokens
    initialState rfl).2 (by decide) (by decide)


/-- C7: for a decoded envelope whose result is exactly "success", when the Save that the handler
makes (if any) succeeds, the handler returns that envelope unchanged and a nil error. -/
theorem responseHandler_success_result {ω ε ρ : Type} (std : Stdlib ε ρ) (c : Config ω ε)
    (payload : String) (res : APIResponse ρ) (s : State ω)
    (hdec : std.Unmarshal payload = Except.ok (some res))
    (hres : res.commonResult.Result = "success")
    (hsave : res.Token.AccessToken ≠ "" ∧ res.Token.RefreshToken ≠ "" →
      (c.tokenRepository.Save s.world res.Token).1 = none) :
    (Config.responseHandler std c (Except.ok payload) s).1 = Outcome.returned (some res) none := by
  have hr : res.commonResult.Result = Success := hres
  unfold Config.responseHandler Config.responseHandler.run
  by_cases hb : res.Token.AccessToken ≠ "" ∧ res.Token.RefreshToken ≠ ""
  · simp [hdec, hb, Config.callSave, hsave hb, hr]
  · simp [hdec, hb, hr]

/-- C7 (example): the envelope of the body with result `success`, code `200`, an empty message
and the one record with `id` `1` is returned with `Data` that one record, and no error. -/
theorem responseHandler_success_result_witness :
    (Config.responseHandler (mockStd (Except.ok (some successEnvelope)))
        (mockConfig none none (Except.ok (Except.ok "body"))) (Except.ok "body")
        initialState).1 =
      Outcome.returned
        (some { commonResult := { Code := "200", Message := "", Result := "success" },
                Token := { AccessToken := "", RefreshToken := "",
                           AccessTokenEndDate := "", RefreshTokenEndDate := "" },
                Count := "",
                Data := [[("id", "1")]] })
        none :=
  responseHandler_success_result (mockStd (Except.ok (some successEnvelope)))
    (mockConfig none none (Except.ok (Except.ok "body"))) "body" successEnvelope
    initialState rfl rfl (fun _ => rfl)

/-- C8: for a decoded envelope whose access token and refresh token are both non-empty, when
`TokenRepository.Save` returns an error the handler returns a nil response and that error,
whatever the envelope's result. -/
theorem responseHandler_save_error {ω ε ρ : Type} (std : Stdlib ε ρ) (c : Config ω ε)
    (payload : String) (res : APIResponse ρ) (s : State ω) (err : ε)
    (hdec : std.Unmarshal payload = Except.ok (some res))
    (hb : res.Token.AccessToken ≠ "" ∧ res.Token.RefreshToken ≠ "")
    (hsave : (c.tokenRepository.Save s.world res.Token).1 = some err) :
    (Config.responseHandler std c (Except.ok payload) s).1 =
      Outcome.returned none (some (GoError.foreign err)) := by
  unfold Config.responseHandler Config.responseHandler.run
  simp [hdec, hb, Config.callSave, hsave]

/-- C8 (example): with a repository whose Save fails with `disk full`, the success envelope
with a token pair gives a nil response and the error `disk full`. -/
theorem responseHandler_save_error_witness :
    (Config.responseHandler (mockStd (Except.ok (some successEnvelopeWithTokens)))
        (mockConfig none (some "disk full") (Except.ok (Except.ok "body"))) (Except.ok "body")
        initialState).1 =
      Outcome.returned none (some (GoError.foreign "disk full")) :=
  responseHandler_save_error (mockStd (Except.ok (some successEnvelopeWithTokens)))
    (mockConfig none (some "disk full") (Except.ok (Except.ok "body"))) "body"
    successEnvelopeWithTokens initialState "disk full" rfl (by decide) rfl

/-! ## `APIExecute` -/

/-- C5: when `TokenRepository.Token` returns an error, `APIExecute` returns a nil response and
that error, and the only call it has made is the `Token` call: no `HTTPClient.Do`, no Save. -/
theorem APIExecute_token_error {ω ε ρ : Type} (std : Stdlib ε ρ) (c : Config ω ε)
    (endpoint : String) (params : List (String × String)) (s : State ω) (err : ε)
    (htok : (c.tokenRepository.Token s.world).1.2 = some err) :
    (Config.APIExecute std c endpoint params s).1 =
      Outcome.returned none (some (GoError.foreign err)) ∧
    (Config.APIExecute std c endpoint params s).2.trace = s.trace ++ [Event.Token] ∧
    doneRequests (Config.APIExecute std c endpoint params s).2.trace = doneRequests s.trace ∧
    savedTokens (Config.APIExecute std c endpoint params s).2.trace = savedTokens s.trace ∧
    (Config.APIExecute std c endpoint params s).2.world = (c.tokenRepository.Token s.world).2 := by
  have hcall : c.callToken s =
      (((c.tokenRepository.Token s.world).1.1, some err),
        { world := (c.tokenRepository.Token s.world).2, trace := s.trace ++ [Event.Token] }) := by
    unfold Config.callToken
    rw [← htok]
  unfold Config.APIExecute
  rw [hcall]
  refine ⟨rfl, rfl, ?_, ?_, rfl⟩
  · simp [doneRequests_append, doneRequests]
  · simp [savedTokens_append, savedTokens]

/-- C5 (example): with a repository whose `Token` fails with `no session`, `APIExecute` on
`/api_v1_users_info/search` returns that error after the `Token` call alone. -/
theorem APIExecute_token_error_witness :
    (Config.APIExecute (mockStd (Except.ok (some successEnvelope)))
        (mockConfig (some "no session") none (Except.ok (Except.ok "body")))
        "/api_v1_users_info/search" [("fields", "id")] initialState).1 =
      Outcome.returned none (some (GoError.foreign "no session")) ∧
    (Config.APIExecute (mockStd (Except.ok (some successEnvelope)))
        (mockConfig (some "no session") none (Except.ok (Except.ok "body")))
        "/api_v1_users_info/search" [("fields", "id")] initialState).2.trace =
      [Event.Token] :=
  ⟨(APIExecute_token_error (mockStd (Except.ok (some successEnvelope)))
      (mockConfig (some "no session") none (Except.ok (Except.ok "body")))
      "/api_v1_users_info/search" [("fields", "id")] initialState "no session" rfl).1,
   (APIExecute_token_error (mockStd (Except.ok (some successEnvelope)))
      (mockConfig (some "no session") none (Except.ok (Except.ok "body")))
      "/api_v1_users_info/search" [("fields", "id")] initialState "no session" rfl).2.1⟩


/-- End-to-end example: on `/api_v1_users_info/search`, with a transport whose response decodes
to the success envelope with the one record with `id` `1`, `APIExecute` returns that envelope
and no error, after one `Token` call, one `Do` call and closing the body. -/
theorem APIExecute_success_example :
    (Config.APIExecute (mockStd (Except.ok (some successEnvelope)))
        (mockConfig none none (Except.ok (Except.ok "body")))
        "/api_v1_users_info/search" [] initialState).1 =
      Outcome.returned (some successEnvelope) none ∧
    successEnvelope.Data = [[("id", "1")]] ∧
    savedTokens (Config.APIExecute (mockStd (Except.ok (some successEnvelope)))
        (mockConfig none none (Except.ok (Except.ok "body")))
        "/api_v1_users_info/search" [] initialState).2.trace = [] := by
  refine ⟨rfl, rfl, rfl⟩

/-! ## Query and form parameters -/

/-- C6: the query parameters that `SignInURI` encodes hold, under `client_id`, the configured
client ID followed by the values `extraParam` has for `client_id`; under `redirect_uri`, the
configured redirect URI followed by the values `extraParam` has for `redirect_uri`; and under
every other key exactly the values of `extraParam`, in their order. So the client ID and the
redirect URI are present, and every value of every key of `extraParam` is present, the values of
one key in their original order. -/
theorem SignInURI_query_parameters {ω ε ρ : Type} (std : Stdlib ε ρ) (c : Config ω ε)
    (extraParam : Values) (hkeys : (extraParam.map Prod.fst).Nodup) :
    Config.SignInURI std c extraParam =
      authHost ++ "/users/sign_in/" ++ "?" ++ std.Encode (Config.SignInURI.v c extraParam) ∧
    Values.index (Config.SignInURI.v c extraParam) "client_id" =
      c.clientID :: Values.index extraParam "client_id" ∧
    Values.index (Config.SignInURI.v c extraParam) "redirect_uri" =
      c.redirectURI :: Values.index extraParam "redirect_uri" ∧
    (∀ key : String, key ≠ "client_id" → key ≠ "redirect_uri" →
      Values.index (Config.SignInURI.v c extraParam) key = Values.index extraParam key) ∧
    (∀ key : String,
      Values.index extraParam key <:+ Values.index (Config.SignInURI.v c extraParam) key) ∧
    (∀ key val : String, val ∈ Values.index extraParam key →
      val ∈ Values.index (Config.SignInURI.v c extraParam) key) := by
  have hidx : ∀ key : String,
      Values.index (Config.SignInURI.v c extraParam) key =
        (if key = "redirect_uri" then
            (if "redirect_uri" = "client_id" then [c.clientID] else []) ++ [c.redirectURI]
          else if key = "client_id" then [c.clientID] else []) ++
          Values.index extraParam key := by
    intro key
    unfold Config.SignInURI.v
    simp only [Values.index_addAll _ _ hkeys, Values.index_Add, Values.index_nil,
      List.nil_append]
  have hne : ¬ ("redirect_uri" = "client_id") := by decide
  have hne2 : ¬ ("client_id" = "redirect_uri") := by decide
  refine ⟨rfl, ?_, ?_, ?_, ?_, ?_⟩
  · rw [hidx]; simp [hne2]
  · rw [hidx]; simp [hne]
  · intro key h1 h2
    rw [hidx]; simp [h1, h2]
  · intro key
    rw [hidx]
    exact List.suffix_append _ _
  · intro key val hmem
    rw [hidx]
    exact List.mem_append_right _ hmem

/-- C6 (example): with `extraParam` holding two values under `state` and one under `client_id`,
the query parameters hold `id` then `other` under `client_id` and `s1` then `s2` under `state`. -/
theorem SignInURI_query_parameters_witness :
    Values.index
        (Config.SignInURI.v (mockConfig none none (Except.ok (Except.ok "body")))
          [("state", ["s1", "s2"]), ("client_id", ["other"])]) "client_id" =
      "id" :: Values.index [("state", ["s1", "s2"]), ("client_id", ["other"])] "client_id" ∧
    Values.index [("state", ["s1", "s2"]), ("client_id", ["other"])] "state" <:+
      Values.index
        (Config.SignInURI.v (mockConfig none none (Except.ok (Except.ok "body")))
          [("state", ["s1", "s2"]), ("client_id", ["other"])]) "state" :=
  ⟨(SignInURI_query_parameters (mockStd (Except.ok (some successEnvelope)))
      (mockConfig none none (Except.ok (Except.ok "body")))
      [("state", ["s1", "s2"]), ("client_id", ["other"])] (by decide)).2.1,
   (SignInURI_query_parameters (mockStd (Except.ok (some successEnvelope)))
      (mockConfig none none (Except.ok (Except.ok "body")))
      [("state", ["s1", "s2"]), ("client_id", ["other"])] (by decide)).2.2.2.2.1 "state"⟩

/-- C9: in the form values that `request` encodes, the list under each key is the caller's value
for that key (if the caller has one) followed by the credential values for that key in their
order, so no pair is dropped; for `APIExecute`, a caller value under `access_token` comes first
and the stored access token follows it. When the URL parses and the request can be built, the
one request handed to `HTTPClient.Do` is a POST whose body is the encoding of those values. -/
theorem request_form_values {ω ε ρ : Type} (std : Stdlib ε ρ) (c : Config ω ε)
    (endpoint u : String) (params : List (String × String)) (extraParams : Values)
    (s : State ω)
    (hparams : (params.map Prod.fst).Nodup) (hextra : (extraParams.map Prod.fst).Nodup)
    (hparse : std.parseString (apiHost ++ endpoint) = some u)
    (hreq : std.NewRequest "POST" u = none) :
    (∀ key : String,
      Values.index (Config.request.v params extraParams) key =
        paramsIndex params key ++ Values.index extraParams key) ∧
    (∀ tok : NextEngine.Token,
      Values.index (Config.request.v params (Config.APIExecute.v tok)) "access_token" =
        paramsIndex params "access_token" ++ [tok.AccessToken]) ∧
    doneRequests (Config.request std c endpoint params extraParams s).2.trace =
      doneRequests s.trace ++
        [{ method := "POST", url := u, contentType := "application/x-www-form-urlencoded",
           body := std.Encode (Config.request.v params extraParams) }] := by
  have hidx : ∀ (extra : Values), (extra.map Prod.fst).Nodup → ∀ key : String,
      Values.index (Config.request.v params extra) key =
        paramsIndex params key ++ Values.index extra key := by
    intro extra hx key
    unfold Config.request.v
    simp only [Values.index_addAll _ _ hx, Values.index_addParams _ _ hparams, Values.index_nil,
      List.nil_append]
  refine ⟨hidx extraParams hextra, ?_, ?_⟩
  · intro tok
    have hk : ((Config.APIExecute.v tok).map Prod.fst).Nodup := by
      simp [Config.APIExecute.v, Values.Add]
    rw [hidx _ hk]
    simp [Config.APIExecute.v, Values.Add, Values.index_cons]
  · unfold Config.request newRequest
    simp only [hparse, hreq]
    cases hdo : (c.HTTPClient.Do s.world
        { method := "POST", url := u, contentType := "application/x-www-form-urlencoded",
          body := std.Encode (Config.request.v params extraParams) }).1 with
    | error err => simp [Config.callDo, hdo, doneRequests_append, doneRequests]
    | ok body =>
      simp [Config.callDo, hdo, responseHandler_doneRequests, doneRequests_append, doneRequests]

/-- C9 (example): the caller passes `access_token` `mine` and `fields` `id`; the credentials are
those of `APIExecute` for the held token. Under `access_token` the form has `mine` then `A`. -/
theorem request_form_values_witness :
    Values.index (Config.request.v [("access_token", "mine"), ("fields", "id")]
        (Config.APIExecute.v heldToken)) "access_token" = ["mine", "A"] ∧
    Values.index (Config.request.v [("access_token", "mine"), ("fields", "id")]
        (Config.APIExecute.v heldToken)) "fields" = ["id"] ∧
    Values.index (Config.request.v [("access_token", "mine"), ("fields", "id")]
        (Config.APIExecute.v heldToken)) "refresh_token" = ["B"] :=
  ⟨((request_form_values (mockStd (Except.ok (some successEnvelope)))
      (mockConfig none none (Except.ok (Except.ok "body"))) "/api_v1_users_info/search"
      (apiHost ++ "/api_v1_users_info/search") [("access_token", "mine"), ("fields", "id")]
      (Config.APIExecute.v heldToken) initialState (by decide) (by decide) rfl rfl).1
      "access_token").trans (by decide),
   ((request_form_values (mockStd (Except.ok (some successEnvelope)))
      (mockConfig none none (Except.ok (Except.ok "body"))) "/api_v1_users_info/search"
      (apiHost ++ "/api_v1_users_info/search") [("access_token", "mine"), ("fields", "id")]
      (Config.APIExecute.v heldToken) initialState (by decide) (by decide) rfl rfl).1
      "fields").trans (by decide),
   ((request_form_values (mockStd (Except.ok (some successEnvelope)))
      (mockConfig none none (Except.ok (Except.ok "body"))) "/api_v1_users_info/search"
      (apiHost ++ "/api_v1_users_info/search") [("access_token", "mine"), ("fields", "id")]
      (Config.APIExecute.v heldToken) initialState (by decide) (by decide) rfl rfl).1
      "refresh_token").trans (by decide)⟩

end NextEngine
